import Mathlib

/-!
Shallow embedding of the dip/rip trading bot (src/crypto_trading_bot.py).

Prices, balances and fees are modelled as exact rationals; timestamps as
integer seconds since the epoch; calendar days as integer day numbers, so
that day `d` covers the timestamp window `[d * 86400, (d + 1) * 86400)`.
Exchange calls are modelled by their observed outcomes, supplied as inputs.
-/

/-- Configuration values loaded from the environment (module level constants,
lines 72-78). The fields keep the source names; percentages are already
divided by 100 as in the source. -/
structure Config where
  INVESTMENT_AMOUNT_USD : ℚ
  BASE_DIP : ℚ
  BASE_RIP : ℚ
  MIN_HOLD : ℤ
  DAILY_DRAWDOWN_LIMIT : ℚ
deriving DecidableEq

/-- The documented .env defaults: investment 10 USD, dip 1 percent, rip
2 percent, minimum hold 300 s, daily drawdown limit 0.05. -/
def defaultConfig : Config :=
  { INVESTMENT_AMOUNT_USD := 10
    BASE_DIP := 1 / 100
    BASE_RIP := 2 / 100
    MIN_HOLD := 300
    DAILY_DRAWDOWN_LIMIT := 1 / 20 }

/-- Per-symbol position record (line 147): the dict
`\x7b 'in': False, 'last_price': price, 'buy_time': None, 'buy_price': None \x7d`.
The key `in` is a reserved word in Lean, hence the field name `pos_in`. -/
structure Position where
  pos_in : Bool
  last_price : ℚ
  buy_time : Option ℤ
  buy_price : Option ℚ
deriving DecidableEq

/-- The position seeded for a symbol by `init_positions` (line 147). -/
def init_position (price : ℚ) : Position :=
  { pos_in := false, last_price := price, buy_time := none, buy_price := none }

/-- Value of `(now - t).seconds` in Python: a `timedelta` is normalized so
that `.seconds` is the seconds-of-day component in `[0, 86400)`, i.e. the
elapsed whole seconds modulo 86400 (days are discarded). -/
def timedeltaSeconds (now t : ℤ) : ℤ :=
  (now - t) % 86400

/-- Round half to even (the rounding used by the Python builtin `round`). -/
def pyRound (q : ℚ) : ℤ :=
  let f := ⌊q⌋
  let r := q - (f : ℚ)
  if r < 1 / 2 then f
  else if 1 / 2 < r then f + 1
  else if f % 2 = 0 then f else f + 1

/-- `round(x, 8)` (line 188): round to 8 decimal places. -/
def round8 (q : ℚ) : ℚ :=
  (pyRound (q * 10 ^ 8) : ℚ) / 10 ^ 8

/-- One row of trades.csv (header at line 106): timestamp, symbol, side,
price, amount, fee, usdt_delta. -/
structure TradeRecord where
  timestamp : ℤ
  symbol : String
  side : String
  price : ℚ
  amount : ℚ
  fee : ℚ
  usdt_delta : ℚ
deriving DecidableEq

/-- A Telegram notification sent by `send_telegram`, with its content. -/
inductive Note where
  | dailySummary (day : ℤ) (trades : ℕ) (pnl : ℚ)
  | drawdownPause
  | bought (sym : String) (price : ℚ)
  | sold (sym : String) (price : ℚ)
deriving DecidableEq

/-- Result of evaluating one symbol inside the loop (lines 185-207): the
updated position, the journal row appended (if a trade committed), and the
notifications sent. -/
structure EvalOut where
  st : Position
  record : Option TradeRecord
  notes : List Note
deriving DecidableEq

/-- One evaluation of a symbol in the trading loop body (lines 185-207),
given the observed price, the fee the order would report, and the free base
balance the exchange would report for a sell. Both order placements are
modelled as succeeding. The buy guard is line 187, the sell guard line 197
(note `.seconds` on the elapsed timedelta), and lines 206-207 update
`last_price` whenever the position ends the cycle flat. -/
def evalSymbol (cfg : Config) (sym : String) (st : Position) (now : ℤ)
    (price buyFee sellFee freeBase : ℚ) : EvalOut :=
  let step : EvalOut :=
    if st.pos_in = false ∧ price ≤ st.last_price * (1 - cfg.BASE_DIP) then
      let amt := round8 (cfg.INVESTMENT_AMOUNT_USD / price)
      let st1 : Position :=
        { st with pos_in := true, buy_time := some now, buy_price := some price }
      let delta := -(price * amt + buyFee)
      { st := st1
        record := some ⟨now, sym, "buy", price, amt, buyFee, delta⟩
        notes := [Note.bought sym price] }
    else if st.pos_in = true ∧
        cfg.MIN_HOLD ≤ timedeltaSeconds now (st.buy_time.getD 0) ∧
        st.buy_price.getD 0 * (1 + cfg.BASE_RIP) ≤ price then
      let amt := freeBase
      let st1 : Position := { st with pos_in := false, last_price := price }
      let delta := price * amt - sellFee
      { st := st1
        record := some ⟨now, sym, "sell", price, amt, sellFee, delta⟩
        notes := [Note.sold sym price] }
    else
      { st := st, record := none, notes := [] }
  if step.st.pos_in = false then
    { step with st := { step.st with last_price := price } }
  else
    step

/-- The daily window aggregation done by `daily_summary` (lines 155-160):
records with timestamp in `[day 00:00, day+1 00:00)`, returning the trade
count and the sum of `usdt_delta`. -/
def summarize (log : List TradeRecord) (day : ℤ) : ℕ × ℚ :=
  let recs := log.filter fun r =>
    decide (day * 86400 ≤ r.timestamp ∧ r.timestamp < (day + 1) * 86400)
  (recs.length, (recs.map TradeRecord.usdt_delta).sum)

/-- Process-wide mutable state of the bot: the run flag (`running_event`),
the summary date and baseline balance (lines 83-84), the per-symbol
positions, and the trade journal (trades.csv, as the list of its rows). -/
structure BotState where
  running : Bool
  last_summary_date : ℤ
  starting_balance : ℚ
  positions : List (String × Position)
  log : List TradeRecord
deriving DecidableEq

/-- The external world observed during one loop iteration: the current
calendar day, the current time, the balance fetched at a baseline roll, the
outcome of this iteration's balance fetch (`none` models the fetch raising,
lines 174-178), and per-symbol market data. -/
structure Env where
  today : ℤ
  now : ℤ
  rollBalance : ℚ
  balanceFetch : Option ℚ
  priceOf : String → ℚ
  buyFeeOf : String → ℚ
  sellFeeOf : String → ℚ
  freeOf : String → ℚ

/-- `daily_summary` (lines 151-163): when the calendar day has advanced past
`last_summary_date`, summarize the stored day's window, notify, refresh the
baseline balance, and advance `last_summary_date` to today. -/
def daily_summary (s : BotState) (today : ℤ) (rollBalance : ℚ) :
    BotState × List Note :=
  if s.last_summary_date < today then
    let stats := summarize s.log s.last_summary_date
    ({ s with starting_balance := rollBalance, last_summary_date := today },
      [Note.dailySummary s.last_summary_date stats.1 stats.2])
  else
    (s, [])

/-- The per-symbol loop of lines 183-210 over the positions list, collecting
updated positions, appended journal rows, and notifications. -/
def evalSymbols (cfg : Config) (env : Env) :
    List (String × Position) →
      List (String × Position) × List TradeRecord × List Note
  | [] => ([], [], [])
  | (sym, st) :: rest =>
    let out := evalSymbol cfg sym st env.now (env.priceOf sym)
      (env.buyFeeOf sym) (env.sellFeeOf sym) (env.freeOf sym)
    let tail := evalSymbols cfg env rest
    ((sym, out.st) :: tail.1, out.record.toList ++ tail.2.1, out.notes ++ tail.2.2)

/-- One pass of the `while True` body of `trading_loop` (lines 167-213):
idle when the run flag is clear; otherwise run the daily summary, fetch the
balance (a failed fetch skips the rest of the iteration), check the drawdown
breaker (a breach notifies and clears the run flag before any symbol is
evaluated), and finally evaluate every symbol. -/
def loopIteration (cfg : Config) (s : BotState) (env : Env) :
    BotState × List Note :=
  if s.running = false then
    (s, [])
  else
    let rolled := daily_summary s env.today env.rollBalance
    let s1 := rolled.1
    match env.balanceFetch with
    | none => (s1, rolled.2)
    | some bal =>
      if bal < s1.starting_balance * (1 - cfg.DAILY_DRAWDOWN_LIMIT) then
        ({ s1 with running := false }, rolled.2 ++ [Note.drawdownPause])
      else
        let ev := evalSymbols cfg env s1.positions
        ({ s1 with positions := ev.1, log := s1.log ++ ev.2.1 },
          rolled.2 ++ ev.2.2)

/-- Outcome of one wrapped exchange call attempt: a result, a failure of a
transient class (`ccxt.NetworkError`, `ccxt.RequestTimeout`,
`requests.RequestException` - the classes caught at line 113), or any other
failure. Failures carry an identifier so that re-raising the same failure is
expressible. -/
inductive CallOutcome (α : Type) where
  | success (v : α)
  | transientErr (e : ℕ)
  | fatalErr (e : ℕ)
deriving DecidableEq

/-- The `for i in range(retries - 1)` loop of `retry_call` (lines 110-115),
with `i` attempts already made and `n` loop iterations remaining, followed by
the final unguarded call of line 116. `f k` is the outcome the wrapped
operation would produce on its k-th invocation (0-based). Returns the
outcome delivered to the caller together with the number of attempts made. -/
def retryLoop {α : Type} (f : ℕ → CallOutcome α) (i : ℕ) :
    ℕ → CallOutcome α × ℕ
  | 0 => (f i, i + 1)
  | n + 1 =>
    match f i with
    | CallOutcome.success v => (CallOutcome.success v, i + 1)
    | CallOutcome.fatalErr e => (CallOutcome.fatalErr e, i + 1)
    | CallOutcome.transientErr _ => retryLoop f (i + 1) n

/-- `retry_call` (lines 109-116): up to `retries - 1` guarded attempts, then
one final unguarded attempt. -/
def retry_call {α : Type} (f : ℕ → CallOutcome α) (retries : ℕ) :
    CallOutcome α × ℕ :=
  retryLoop f 0 (retries - 1)

/-- Default `retries=3` of `retry_call` (line 109). -/
def retry_default_retries : ℕ := 3

/-- Default `delay=2` seconds slept between attempts (lines 109, 115). -/
def retry_default_delay : ℕ := 2

/-- `fetch_balance_usdt` (lines 130-132). The exchange response is modelled
by its USDT entry: `none` when the response has no USDT key, `some none`
when the entry lacks a total field, `some (some t)` otherwise; each missing
level falls back to the default `0.0` of the corresponding `.get`. -/
def fetch_balance_usdt (usdtTotal : Option (Option ℚ)) : ℚ :=
  match usdtTotal with
  | none => 0
  | some none => 0
  | some (some t) => t

/-- Where an exception escapes during one iteration of `trading_loop`:
inside the top-level body outside any inner handler (e.g. in
`daily_summary`), inside the balance fetch of line 174, or inside one
symbol's evaluation. -/
inductive RaiseSite where
  | summaryPhase
  | balancePhase
  | symbolPhase
  | noRaise
deriving DecidableEq

/-- How the handlers of `trading_loop` route an exception raised at each
site: whether it is logged, whether a Notifier message is sent for it, and
whether the loop continues to another cycle afterwards. The outer handler
(lines 211-213) only logs; the balance-fetch handler (lines 175-178) only
logs and skips the iteration; the per-symbol handler (lines 208-210) logs
and notifies. -/
def handleIterError : RaiseSite → Bool × Bool × Bool
  | RaiseSite.summaryPhase => (true, false, true)
  | RaiseSite.balancePhase => (true, false, true)
  | RaiseSite.symbolPhase => (true, true, true)
  | RaiseSite.noRaise => (false, false, true)

/-! Branch characterizations of `evalSymbol`. -/

/-- A flat position with the dip condition met commits a BUY. -/
lemma evalSymbol_buy (cfg : Config) (sym : String) (st : Position) (now : ℤ)
    (price buyFee sellFee freeBase : ℚ)
    (h0 : st.pos_in = false)
    (h : price ≤ st.last_price * (1 - cfg.BASE_DIP)) :
    evalSymbol cfg sym st now price buyFee sellFee freeBase =
      { st := { pos_in := true, last_price := st.last_price,
                buy_time := some now, buy_price := some price }
        record := some ⟨now, sym, "buy", price,
          round8 (cfg.INVESTMENT_AMOUNT_USD / price), buyFee,
          -(price * round8 (cfg.INVESTMENT_AMOUNT_USD / price) + buyFee)⟩
        notes := [Note.bought sym price] } := by
  have hc : st.pos_in = false ∧ price ≤ st.last_price * (1 - cfg.BASE_DIP) := ⟨h0, h⟩
  unfold evalSymbol
  rw [if_pos hc]
  simp

/-- A flat position with the dip condition not met: only the reference
price is refreshed. -/
lemma evalSymbol_flat_hold (cfg : Config) (sym : String) (st : Position) (now : ℤ)
    (price buyFee sellFee freeBase : ℚ)
    (h0 : st.pos_in = false)
    (h : ¬ price ≤ st.last_price * (1 - cfg.BASE_DIP)) :
    evalSymbol cfg sym st now price buyFee sellFee freeBase =
      { st := { st with last_price := price }, record := none, notes := [] } := by
  have hc1 : ¬ (st.pos_in = false ∧ price ≤ st.last_price * (1 - cfg.BASE_DIP)) :=
    fun hc => h hc.2
  have hc2 : ¬ (st.pos_in = true ∧
      cfg.MIN_HOLD ≤ timedeltaSeconds now (st.buy_time.getD 0) ∧
      st.buy_price.getD 0 * (1 + cfg.BASE_RIP) ≤ price) := by
    rintro ⟨hc, -⟩
    rw [h0] at hc
    exact Bool.false_ne_true hc
  unfold evalSymbol
  rw [if_neg hc1, if_neg hc2]
  simp [h0]

/-- A holding position with both sell conditions met commits a SELL; the
entry fields are carried over unchanged. -/
lemma evalSymbol_sell (cfg : Config) (sym : String) (st : Position) (now : ℤ)
    (price buyFee sellFee freeBase : ℚ)
    (h0 : st.pos_in = true)
    (h1 : cfg.MIN_HOLD ≤ timedeltaSeconds now (st.buy_time.getD 0))
    (h2 : st.buy_price.getD 0 * (1 + cfg.BASE_RIP) ≤ price) :
    evalSymbol cfg sym st now price buyFee sellFee freeBase =
      { st := { pos_in := false, last_price := price,
                buy_time := st.buy_time, buy_price := st.buy_price }
        record := some ⟨now, sym, "sell", price, freeBase, sellFee,
          price * freeBase - sellFee⟩
        notes := [Note.sold sym price] } := by
  have hc1 : ¬ (st.pos_in = false ∧ price ≤ st.last_price * (1 - cfg.BASE_DIP)) := by
    rintro ⟨hc, -⟩
    rw [h0] at hc
    simp at hc
  have hc2 : st.pos_in = true ∧
      cfg.MIN_HOLD ≤ timedeltaSeconds now (st.buy_time.getD 0) ∧
      st.buy_price.getD 0 * (1 + cfg.BASE_RIP) ≤ price := ⟨h0, h1, h2⟩
  unfold evalSymbol
  rw [if_neg hc1, if_pos hc2]
  simp

/-- A holding position with a sell condition unmet is left untouched. -/
lemma evalSymbol_holding_hold (cfg : Config) (sym : String) (st : Position) (now : ℤ)
    (price buyFee sellFee freeBase : ℚ)
    (h0 : st.pos_in = true)
    (h : ¬ (cfg.MIN_HOLD ≤ timedeltaSeconds now (st.buy_time.getD 0) ∧
        st.buy_price.getD 0 * (1 + cfg.BASE_RIP) ≤ price)) :
    evalSymbol cfg sym st now price buyFee sellFee freeBase =
      { st := st, record := none, notes := [] } := by
  have hc1 : ¬ (st.pos_in = false ∧ price ≤ st.last_price * (1 - cfg.BASE_DIP)) := by
    rintro ⟨hc, -⟩
    rw [h0] at hc
    simp at hc
  have hc2 : ¬ (st.pos_in = true ∧
      cfg.MIN_HOLD ≤ timedeltaSeconds now (st.buy_time.getD 0) ∧
      st.buy_price.getD 0 * (1 + cfg.BASE_RIP) ≤ price) :=
    fun hc => h hc.2
  unfold evalSymbol
  rw [if_neg hc1, if_neg hc2]
  simp [h0]

/-! Claim theorems. -/

/-- C1 fails on the code: a SELL (lines 197-204) never resets `buy_time` or
`buy_price`, so after a completed SELL at these concrete inputs the position
is FLAT while both entry fields are still set, refuting the claimed
two-sided invariant. -/
theorem C1_counterexample :
    (evalSymbol defaultConfig "BTC/USDT" ⟨true, 100, some 0, some 100⟩ 301 103 0 0 1).st.pos_in
        = false ∧
    (evalSymbol defaultConfig "BTC/USDT" ⟨true, 100, some 0, some 100⟩ 301 103 0 0 1).st.buy_price
        = some 100 ∧
    (evalSymbol defaultConfig "BTC/USDT" ⟨true, 100, some 0, some 100⟩ 301 103 0 0 1).st.buy_time
        = some 0 := by
  refine ⟨?_, ?_, ?_⟩ <;> norm_num [evalSymbol, defaultConfig, timedeltaSeconds]

/-- C1 (amended): the seeded position is FLAT with both entry fields unset,
and every transition preserves the direction state HOLDING implies
`entryPrice` and `entryTime` both set; but a completed SELL returns the
position to FLAT without clearing the two fields, which keep the values of
the last entry. -/
theorem C1_holding_fields :
    (∀ price : ℚ, (init_position price).pos_in = false ∧
      (init_position price).buy_time = none ∧ (init_position price).buy_price = none) ∧
    (∀ cfg sym st now price bf sf free,
      (st.pos_in = true → st.buy_time.isSome ∧ st.buy_price.isSome) →
      ((evalSymbol cfg sym st now price bf sf free).st.pos_in = true →
        (evalSymbol cfg sym st now price bf sf free).st.buy_time.isSome ∧
        (evalSymbol cfg sym st now price bf sf free).st.buy_price.isSome)) ∧
    (∀ cfg sym st now price bf sf free, st.pos_in = true →
      (evalSymbol cfg sym st now price bf sf free).st.pos_in = false →
      (evalSymbol cfg sym st now price bf sf free).st.buy_time = st.buy_time ∧
      (evalSymbol cfg sym st now price bf sf free).st.buy_price = st.buy_price) := by
  refine ⟨fun price => ⟨rfl, rfl, rfl⟩, ?_, ?_⟩
  · intro cfg sym st now price bf sf free hinv hout
    cases hin : st.pos_in
    · by_cases hb : price ≤ st.last_price * (1 - cfg.BASE_DIP)
      · rw [evalSymbol_buy cfg sym st now price bf sf free hin hb]
        simp
      · rw [evalSymbol_flat_hold cfg sym st now price bf sf free hin hb] at hout
        simp [hin] at hout
    · by_cases hs : cfg.MIN_HOLD ≤ timedeltaSeconds now (st.buy_time.getD 0) ∧
          st.buy_price.getD 0 * (1 + cfg.BASE_RIP) ≤ price
      · rw [evalSymbol_sell cfg sym st now price bf sf free hin hs.1 hs.2] at hout
        simp at hout
      · rw [evalSymbol_holding_hold cfg sym st now price bf sf free hin hs]
        exact hinv hin
  · intro cfg sym st now price bf sf free hin hout
    by_cases hs : cfg.MIN_HOLD ≤ timedeltaSeconds now (st.buy_time.getD 0) ∧
        st.buy_price.getD 0 * (1 + cfg.BASE_RIP) ≤ price
    · rw [evalSymbol_sell cfg sym st now price bf sf free hin hs.1 hs.2]
      exact ⟨rfl, rfl⟩
    · rw [evalSymbol_holding_hold cfg sym st now price bf sf free hin hs] at hout
      exact Bool.noConfusion (hin.symm.trans hout)

/-- Witness for C1_holding_fields: a holding position whose hold time is not
yet met keeps its entry fields set. -/
theorem C1_holding_fields_witness :
    (evalSymbol defaultConfig "B" ⟨true, 100, some 0, some 100⟩ 200 103 0 0 1).st.buy_time.isSome ∧
    (evalSymbol defaultConfig "B" ⟨true, 100, some 0, some 100⟩ 200 103 0 0 1).st.buy_price.isSome :=
  C1_holding_fields.2.1 defaultConfig "B" ⟨true, 100, some 0, some 100⟩ 200 103 0 0 1
    (by simp) (by norm_num [evalSymbol, defaultConfig, timedeltaSeconds])

/-- C2 fails on the code at its own scenario: with reference price 100 and
the default 1 percent dip threshold, both a price of 98.9 and a price of
exactly 99.0 satisfy `price <= 100 * 0.99` (line 187), so a BUY fires in
both cases where the claim announces no buy. -/
theorem C2_counterexample :
    (evalSymbol defaultConfig "BTC/USDT" (init_position 100) 0 (989/10) 0 0 0).st.pos_in = true ∧
    (evalSymbol defaultConfig "BTC/USDT" (init_position 100) 0 99 0 0 0).st.pos_in = true := by
  constructor <;> norm_num [evalSymbol, init_position, defaultConfig]

/-- C2 (amended): while FLAT a BUY fires exactly when
`price <= referencePrice * (1 - dipThreshold)` (inclusive), and the entry
price recorded is that price; with reference 100 and dip threshold 1
percent, prices 98.9, 99.0 and 98.99 all fire a buy, the last with entry
price 98.99. -/
theorem C2_buy_rule :
    (∀ cfg sym st now price bf sf free, st.pos_in = false →
      (((evalSymbol cfg sym st now price bf sf free).st.pos_in = true) ↔
        price ≤ st.last_price * (1 - cfg.BASE_DIP))) ∧
    (∀ cfg sym st now price bf sf free, st.pos_in = false →
      (evalSymbol cfg sym st now price bf sf free).st.pos_in = true →
      (evalSymbol cfg sym st now price bf sf free).st.buy_price = some price) ∧
    (evalSymbol defaultConfig "BTC/USDT" (init_position 100) 0 (989/10) 0 0 0).st.pos_in = true ∧
    (evalSymbol defaultConfig "BTC/USDT" (init_position 100) 0 99 0 0 0).st.pos_in = true ∧
    (evalSymbol defaultConfig "BTC/USDT" (init_position 100) 0 (9899/100) 0 0 0).st.pos_in = true ∧
    (evalSymbol defaultConfig "BTC/USDT" (init_position 100) 0 (9899/100) 0 0 0).st.buy_price
      = some (9899/100) := by
  refine ⟨?_, ?_, ?_, ?_, ?_, ?_⟩
  · intro cfg sym st now price bf sf free h0
    by_cases hb : price ≤ st.last_price * (1 - cfg.BASE_DIP)
    · rw [evalSymbol_buy cfg sym st now price bf sf free h0 hb]
      simp [hb]
    · rw [evalSymbol_flat_hold cfg sym st now price bf sf free h0 hb]
      simp [h0, hb]
  · intro cfg sym st now price bf sf free h0 hout
    by_cases hb : price ≤ st.last_price * (1 - cfg.BASE_DIP)
    · rw [evalSymbol_buy cfg sym st now price bf sf free h0 hb]
    · rw [evalSymbol_flat_hold cfg sym st now price bf sf free h0 hb] at hout
      simp [h0] at hout
  all_goals norm_num [evalSymbol, init_position, defaultConfig]

/-- Witness for C2_buy_rule: at reference 99 and price 100 no buy fires. -/
theorem C2_buy_rule_witness :
    ¬ ((evalSymbol defaultConfig "B" (init_position 99) 0 100 0 0 0).st.pos_in = true) :=
  fun h =>
    absurd ((C2_buy_rule.1 defaultConfig "B" (init_position 99) 0 100 0 0 0 rfl).mp h)
      (by norm_num [init_position, defaultConfig])

/-- C3 fails on the code in both directions of its own statement: at entry
price 100 with the default 2 percent rip threshold, a price of exactly 102
at entryTime+301 s satisfies `price >= 100 * 1.02` (line 197) so the sell
fires where the claim announces none; and because line 197 measures the
hold time with `timedelta.seconds` (whole days are dropped), at an elapsed
time of 86600 s (one day plus 200 s) and price 103 no sell fires although
`now - entryTime >= 300 s` and the price target is met. -/
theorem C3_counterexample :
    (evalSymbol defaultConfig "B" ⟨true, 100, some 0, some 100⟩ 301 102 0 0 1).st.pos_in
        = false ∧
    (evalSymbol defaultConfig "B" ⟨true, 100, some 0, some 100⟩ 86600 103 0 0 1).st.pos_in
        = true := by
  constructor <;> norm_num [evalSymbol, defaultConfig, timedeltaSeconds]

/-- C3 (amended): while HOLDING a SELL fires exactly when the seconds-of-day
component of the elapsed timedelta, `(now - entryTime) mod 86400`, is at
least `minHoldDuration` and `price >= entryPrice * (1 + ripThreshold)`
(inclusive); with entry price 100, rip 2 percent and minimum hold 300 s: at
entryTime+200 s and price 103 no sell fires, while at entryTime+301 s both
price 102 and price 102.5 fire the sell. -/
theorem C3_sell_rule :
    (∀ cfg sym st now price bf sf free (t : ℤ) (bp : ℚ),
      st.pos_in = true → st.buy_time = some t → st.buy_price = some bp →
      (((evalSymbol cfg sym st now price bf sf free).st.pos_in = false) ↔
        (cfg.MIN_HOLD ≤ (now - t) % 86400 ∧ bp * (1 + cfg.BASE_RIP) ≤ price))) ∧
    (evalSymbol defaultConfig "B" ⟨true, 100, some 0, some 100⟩ 200 103 0 0 1).st.pos_in
        = true ∧
    (evalSymbol defaultConfig "B" ⟨true, 100, some 0, some 100⟩ 301 102 0 0 1).st.pos_in
        = false ∧
    (evalSymbol defaultConfig "B" ⟨true, 100, some 0, some 100⟩ 301 (205/2) 0 0 1).st.pos_in
        = false := by
  refine ⟨?_, ?_, ?_, ?_⟩
  · intro cfg sym st now price bf sf free t bp h0 ht hp
    have hgetT : st.buy_time.getD 0 = t := by rw [ht]; rfl
    have hgetP : st.buy_price.getD 0 = bp := by rw [hp]; rfl
    by_cases hs : cfg.MIN_HOLD ≤ timedeltaSeconds now (st.buy_time.getD 0) ∧
        st.buy_price.getD 0 * (1 + cfg.BASE_RIP) ≤ price
    · rw [evalSymbol_sell cfg sym st now price bf sf free h0 hs.1 hs.2]
      rw [hgetT, hgetP] at hs
      exact ⟨fun _ => hs, fun _ => rfl⟩
    · rw [evalSymbol_holding_hold cfg sym st now price bf sf free h0 hs]
      rw [hgetT, hgetP] at hs
      exact ⟨fun hfalse => Bool.noConfusion (h0.symm.trans hfalse), fun hrhs => absurd hrhs hs⟩
  all_goals norm_num [evalSymbol, defaultConfig, timedeltaSeconds]

/-- Witness for C3_sell_rule: at entryTime+301 s and price 102.5 the sell
condition of the amended rule holds. -/
theorem C3_sell_rule_witness :
    defaultConfig.MIN_HOLD ≤ ((301:ℤ) - 0) % 86400 ∧
    (100:ℚ) * (1 + defaultConfig.BASE_RIP) ≤ 205/2 :=
  (C3_sell_rule.1 defaultConfig "B" ⟨true, 100, some 0, some 100⟩ 301 (205/2) 0 0 1 0 100
      rfl rfl rfl).mp
    (by norm_num [evalSymbol, defaultConfig, timedeltaSeconds])

/-- C5 fails on the code: an unclassified exception caught at the iteration
boundary (lines 211-213) is logged only - no Notifier message is sent for
it, refuting the claim that every such exception is reported via the
Notifier. -/
theorem C5_counterexample :
    (handleIterError RaiseSite.summaryPhase).2.1 = false := rfl

/-- C5 (amended): every unclassified exception raised in a loop iteration is
caught and logged and the loop proceeds to the next cycle - no failing cycle
terminates the loop - but only exceptions caught by the per-symbol handler
are reported via the Notifier; exceptions caught at the iteration boundary
or in the balance fetch are logged without notification. -/
theorem C5_fatal_handling :
    handleIterError RaiseSite.summaryPhase = (true, false, true) ∧
    handleIterError RaiseSite.balancePhase = (true, false, true) ∧
    handleIterError RaiseSite.symbolPhase = (true, true, true) ∧
    handleIterError RaiseSite.noRaise = (false, false, true) :=
  ⟨rfl, rfl, rfl, rfl⟩

/-! Helper lemmas about `daily_summary` and `retryLoop`. -/

/-- `daily_summary` on a day rollover. -/
lemma daily_summary_roll (s : BotState) (today : ℤ) (roll : ℚ)
    (h : s.last_summary_date < today) :
    daily_summary s today roll =
      ({ s with starting_balance := roll, last_summary_date := today },
        [Note.dailySummary s.last_summary_date (summarize s.log s.last_summary_date).1
          (summarize s.log s.last_summary_date).2]) := by
  unfold daily_summary
  rw [if_pos h]

/-- `daily_summary` when the stored date is current. -/
lemma daily_summary_skip (s : BotState) (today : ℤ) (roll : ℚ)
    (h : ¬ s.last_summary_date < today) :
    daily_summary s today roll = (s, []) := by
  unfold daily_summary
  rw [if_neg h]

lemma daily_summary_running (s : BotState) (today : ℤ) (roll : ℚ) :
    (daily_summary s today roll).1.running = s.running := by
  by_cases h : s.last_summary_date < today
  · rw [daily_summary_roll s today roll h]
  · rw [daily_summary_skip s today roll h]

lemma daily_summary_positions (s : BotState) (today : ℤ) (roll : ℚ) :
    (daily_summary s today roll).1.positions = s.positions := by
  by_cases h : s.last_summary_date < today
  · rw [daily_summary_roll s today roll h]
  · rw [daily_summary_skip s today roll h]

lemma daily_summary_log (s : BotState) (today : ℤ) (roll : ℚ) :
    (daily_summary s today roll).1.log = s.log := by
  by_cases h : s.last_summary_date < today
  · rw [daily_summary_roll s today roll h]
  · rw [daily_summary_skip s today roll h]

/-- The number of attempts `retryLoop` makes is bounded by the remaining
loop iterations plus the final call. -/
lemma retryLoop_attempts {α : Type} (f : ℕ → CallOutcome α) :
    ∀ (n i : ℕ), (retryLoop f i n).2 ≤ i + n + 1 := by
  intro n
  induction n with
  | zero => intro i; exact Nat.le_refl _
  | succ m ih =>
    intro i
    unfold retryLoop
    cases hf : f i with
    | success v => simp
    | transientErr e => exact (ih (i + 1)).trans (by omega)
    | fatalErr e => simp

/-- If the first `k` attempts fail transiently and attempt `k` (0-based,
counted from `i`) fails non-transiently within the guarded range, the
non-transient failure propagates at once. -/
lemma retryLoop_fatal {α : Type} (f : ℕ → CallOutcome α) (e : ℕ) :
    ∀ (k n i : ℕ),
      (∀ j, i ≤ j → j < i + k → ∃ t, f j = CallOutcome.transientErr t) →
      f (i + k) = CallOutcome.fatalErr e → k ≤ n →
      retryLoop f i n = (CallOutcome.fatalErr e, i + k + 1) := by
  intro k
  induction k with
  | zero =>
    intro n i htrans hf hkn
    simp only [Nat.add_zero] at hf ⊢
    cases n with
    | zero => unfold retryLoop; rw [hf]
    | succ m => unfold retryLoop; rw [hf]
  | succ k ih =>
    intro n i htrans hf hkn
    cases n with
    | zero => exact absurd hkn (by omega)
    | succ m =>
      obtain ⟨t, ht⟩ := htrans i (Nat.le_refl i) (by omega)
      unfold retryLoop
      rw [ht]
      have harg : i + 1 + k = i + (k + 1) := by omega
      have := ih m (i + 1)
        (fun j hj1 hj2 => htrans j (by omega) (by omega))
        (by rw [harg]; exact hf) (by omega)
      rw [this]
      have : i + 1 + k + 1 = i + (k + 1) + 1 := by omega
      rw [this]

/-- If every guarded attempt fails transiently, `retryLoop` reaches the
final unguarded call and returns its outcome, having used every attempt. -/
lemma retryLoop_exhaust {α : Type} (f : ℕ → CallOutcome α) :
    ∀ (n i : ℕ),
      (∀ j, i ≤ j → j < i + n → ∃ t, f j = CallOutcome.transientErr t) →
      retryLoop f i n = (f (i + n), i + n + 1) := by
  intro n
  induction n with
  | zero => intro i h; unfold retryLoop; simp
  | succ m ih =>
    intro i h
    obtain ⟨t, ht⟩ := h i (Nat.le_refl i) (by omega)
    unfold retryLoop
    rw [ht]
    have := ih (i + 1) (fun j hj1 hj2 => h j (by omega) (by omega))
    rw [this]
    have harg : i + 1 + m = i + (m + 1) := by omega
    rw [harg]

/-- C4: an observed drawdown breach - strict comparison at line 179 against
the post-roll baseline - clears the run flag and notifies before any symbol
is evaluated that cycle; the iteration never turns the run flag on by
itself; and at baseline 1000 with the default 5 percent limit, 950 is not a
breach while 949 is. -/
theorem C4_drawdown_breach :
    (∀ cfg s env (bal : ℚ), s.running = true → env.balanceFetch = some bal →
      bal < (daily_summary s env.today env.rollBalance).1.starting_balance
          * (1 - cfg.DAILY_DRAWDOWN_LIMIT) →
      (loopIteration cfg s env).1.running = false ∧
      (loopIteration cfg s env).2
        = (daily_summary s env.today env.rollBalance).2 ++ [Note.drawdownPause] ∧
      (loopIteration cfg s env).1.positions = s.positions ∧
      (loopIteration cfg s env).1.log = s.log) ∧
    (∀ cfg s env, (loopIteration cfg s env).1.running = true → s.running = true) ∧
    ¬ ((950:ℚ) < 1000 * (1 - defaultConfig.DAILY_DRAWDOWN_LIMIT)) ∧
    ((949:ℚ) < 1000 * (1 - defaultConfig.DAILY_DRAWDOWN_LIMIT)) := by
  refine ⟨?_, ?_, ?_, ?_⟩
  · intro cfg s env bal hrun hbf hlt
    have hnr : ¬ s.running = false := by simp [hrun]
    simp only [loopIteration, if_neg hnr, hbf]
    rw [if_pos hlt]
    exact ⟨rfl, rfl, daily_summary_positions s env.today env.rollBalance,
      daily_summary_log s env.today env.rollBalance⟩
  · intro cfg s env h
    by_cases hr : s.running = true
    · exact hr
    · have hr' : s.running = false := by revert hr; cases s.running <;> simp
      unfold loopIteration at h
      rw [if_pos hr'] at h
      exact absurd h hr
  · norm_num [defaultConfig]
  · norm_num [defaultConfig]

/-- Concrete state for the C4 witness. -/
def c4state : BotState :=
  { running := true, last_summary_date := 0, starting_balance := 1000,
    positions := [("BTC/USDT", init_position 100)], log := [] }

/-- Concrete environment for the C4 witness: balance 949 observed. -/
def c4env : Env :=
  { today := 0, now := 0, rollBalance := 0, balanceFetch := some 949,
    priceOf := fun _ => 100, buyFeeOf := fun _ => 0, sellFeeOf := fun _ => 0,
    freeOf := fun _ => 0 }

/-- Witness for C4_drawdown_breach: balance 949 against baseline 1000
pauses the loop without touching the positions. -/
theorem C4_drawdown_breach_witness :
    (loopIteration defaultConfig c4state c4env).1.running = false ∧
    (loopIteration defaultConfig c4state c4env).1.positions = c4state.positions :=
  ⟨(C4_drawdown_breach.1 defaultConfig c4state c4env 949 rfl rfl
      (by norm_num [daily_summary, c4state, c4env, defaultConfig])).1,
    (C4_drawdown_breach.1 defaultConfig c4state c4env 949 rfl rfl
      (by norm_num [daily_summary, c4state, c4env, defaultConfig])).2.2.1⟩

/-- Concrete paused state for the C6 counterexample. -/
def c6state : BotState :=
  { running := false, last_summary_date := 0, starting_balance := 1000,
    positions := [], log := [] }

/-- Concrete environment for the C6 counterexample: the calendar day has
advanced past the stored summary date. -/
def c6env : Env :=
  { today := 1, now := 86400, rollBalance := 900, balanceFetch := some 1000,
    priceOf := fun _ => 100, buyFeeOf := fun _ => 0, sellFeeOf := fun _ => 0,
    freeOf := fun _ => 0 }

/-- C6 fails on the code: `daily_summary` is only reached from the running
branch of the loop (line 172), so while the loop is paused a calendar-day
rollover triggers neither the summary notification nor the baseline roll -
the roll is not independent of the pause state. -/
theorem C6_counterexample :
    c6state.running = false ∧
    c6state.last_summary_date < c6env.today ∧
    loopIteration defaultConfig c6state c6env = (c6state, []) := by
  refine ⟨rfl, by norm_num [c6state, c6env], ?_⟩
  simp [loopIteration, c6state]

/-- C6 (amended): on the first running iteration after a calendar-day
rollover the stored day's summary (trade count and net delta over its
window) is computed and notified exactly once and the baseline balance is
refreshed; a repeated call on the same day does nothing; rolling never
touches the run flag (so it cannot clear a pause); but while the loop is
paused no summary or roll happens at all. -/
theorem C6_daily_roll :
    (∀ s today roll, s.last_summary_date < today →
      daily_summary s today roll =
        ({ s with starting_balance := roll, last_summary_date := today },
          [Note.dailySummary s.last_summary_date
            (summarize s.log s.last_summary_date).1
            (summarize s.log s.last_summary_date).2])) ∧
    (∀ s today roll, ¬ s.last_summary_date < today →
      daily_summary s today roll = (s, [])) ∧
    (∀ s today roll roll2,
      daily_summary (daily_summary s today roll).1 today roll2
        = ((daily_summary s today roll).1, [])) ∧
    (∀ s today roll, (daily_summary s today roll).1.running = s.running) ∧
    (∀ cfg s env, s.running = false → loopIteration cfg s env = (s, [])) := by
  refine ⟨daily_summary_roll, daily_summary_skip, ?_, daily_summary_running, ?_⟩
  · intro s today roll roll2
    by_cases h : s.last_summary_date < today
    · rw [daily_summary_roll s today roll h]
      exact daily_summary_skip _ today roll2 (lt_irrefl today)
    · rw [daily_summary_skip s today roll h]
      exact daily_summary_skip s today roll2 h
  · intro cfg s env h
    unfold loopIteration
    rw [if_pos h]

/-- Witness for C6_daily_roll: a rollover from day 0 to day 1 with an empty
journal notifies a zero summary and refreshes the baseline. -/
theorem C6_daily_roll_witness :
    daily_summary
        { running := true, last_summary_date := 0, starting_balance := 1000,
          positions := [], log := [] } 1 900 =
      ({ running := true, last_summary_date := 1, starting_balance := 900,
          positions := [], log := [] },
        [Note.dailySummary 0 0 0]) := by
  have h := C6_daily_roll.1
    { running := true, last_summary_date := 0, starting_balance := 1000,
      positions := [], log := [] } 1 900 (by norm_num)
  simpa [summarize] using h

/-- Scenario D BUY row: price 100, amount 1, fee 0.1, with `usdt_delta` as
line 194 computes it for those inputs. -/
def c7buy : TradeRecord :=
  { timestamp := 100, symbol := "BTC/USDT", side := "buy",
    price := 100, amount := 1, fee := 1/10, usdt_delta := -(100 * 1 + 1/10) }

/-- Scenario D SELL row: price 103, amount 1, fee 0.1, with `usdt_delta` as
line 203 computes it for those inputs. -/
def c7sell : TradeRecord :=
  { timestamp := 400, symbol := "BTC/USDT", side := "sell",
    price := 103, amount := 1, fee := 1/10, usdt_delta := 103 * 1 - 1/10 }

/-- C7: every journal row committed by the loop satisfies
`usdt_delta = -(price*amount + fee)` for a BUY and
`usdt_delta = price*amount - fee` for a SELL; the Scenario D rows carry
-100.1 and +102.9, and summarizing their day yields 2 trades and net 2.8. -/
theorem C7_quote_delta :
    (∀ cfg sym st now price bf sf free (r : TradeRecord),
      (evalSymbol cfg sym st now price bf sf free).record = some r →
      (r.side = "buy" → r.usdt_delta = -(r.price * r.amount + r.fee)) ∧
      (r.side = "sell" → r.usdt_delta = r.price * r.amount - r.fee)) ∧
    c7buy.usdt_delta = -(c7buy.price * c7buy.amount + c7buy.fee) ∧
    c7sell.usdt_delta = c7sell.price * c7sell.amount - c7sell.fee ∧
    c7buy.usdt_delta = -(1001/10) ∧
    c7sell.usdt_delta = 1029/10 ∧
    summarize [c7buy, c7sell] 0 = (2, 14/5) := by
  refine ⟨?_, rfl, rfl, by norm_num [c7buy], by norm_num [c7sell], ?_⟩
  · intro cfg sym st now price bf sf free r hr
    cases hin : st.pos_in
    · by_cases hb : price ≤ st.last_price * (1 - cfg.BASE_DIP)
      · rw [evalSymbol_buy cfg sym st now price bf sf free hin hb] at hr
        simp only [Option.some.injEq] at hr
        subst hr
        constructor
        · intro _
          rfl
        · intro hside
          exact absurd hside (by simp)
      · rw [evalSymbol_flat_hold cfg sym st now price bf sf free hin hb] at hr
        simp at hr
    · by_cases hs : cfg.MIN_HOLD ≤ timedeltaSeconds now (st.buy_time.getD 0) ∧
          st.buy_price.getD 0 * (1 + cfg.BASE_RIP) ≤ price
      · rw [evalSymbol_sell cfg sym st now price bf sf free hin hs.1 hs.2] at hr
        simp only [Option.some.injEq] at hr
        subst hr
        constructor
        · intro hside
          exact absurd hside (by simp)
        · intro _
          rfl
      · rw [evalSymbol_holding_hold cfg sym st now price bf sf free hin hs] at hr
        simp at hr
  · norm_num [summarize, c7buy, c7sell]

/-- The BUY row emitted by the C7 witness evaluation. -/
def c7wit : TradeRecord :=
  { timestamp := 0, symbol := "B", side := "buy", price := 80,
    amount := round8 (defaultConfig.INVESTMENT_AMOUNT_USD / 80), fee := 1/10,
    usdt_delta := -(80 * round8 (defaultConfig.INVESTMENT_AMOUNT_USD / 80) + 1/10) }

/-- Witness for C7_quote_delta: the BUY committed at price 80 satisfies the
BUY delta invariant. -/
theorem C7_quote_delta_witness :
    c7wit.usdt_delta = -(c7wit.price * c7wit.amount + c7wit.fee) :=
  (C7_quote_delta.1 defaultConfig "B" (init_position 100) 0 80 (1/10) 0 0 c7wit
    (by
      rw [evalSymbol_buy defaultConfig "B" (init_position 100) 0 80 (1/10) 0 0 rfl
        (by norm_num [init_position, defaultConfig])]
      rfl)).1 rfl

/-- C8: `retry_call` makes at most `retries` attempts (default 3, with the
default 2 s fixed delay between attempts); a failure outside the transient
classes propagates at once with no further attempt; and when every guarded
attempt fails transiently the final unguarded attempt's outcome - in
particular its failure - is returned to the caller after exactly `retries`
attempts, never swallowed. -/
theorem C8_retry_call :
    (∀ (α : Type) (f : ℕ → CallOutcome α) (retries : ℕ), 1 ≤ retries →
      (retry_call f retries).2 ≤ retries) ∧
    (∀ (α : Type) (f : ℕ → CallOutcome α) (retries k e : ℕ),
      (∀ j, j < k → ∃ t, f j = CallOutcome.transientErr t) →
      f k = CallOutcome.fatalErr e → k ≤ retries - 1 →
      retry_call f retries = (CallOutcome.fatalErr e, k + 1)) ∧
    (∀ (α : Type) (f : ℕ → CallOutcome α) (retries : ℕ), 1 ≤ retries →
      (∀ j, j < retries - 1 → ∃ t, f j = CallOutcome.transientErr t) →
      retry_call f retries = (f (retries - 1), retries)) ∧
    retry_default_retries = 3 ∧ retry_default_delay = 2 := by
  refine ⟨?_, ?_, ?_, rfl, rfl⟩
  · intro α f retries h1
    have hb := retryLoop_attempts f (retries - 1) 0
    unfold retry_call
    omega
  · intro α f retries k e htrans hf hk
    have h := retryLoop_fatal f e k (retries - 1) 0
      (fun j hj1 hj2 => htrans j (by omega))
      (by rw [Nat.zero_add]; exact hf) hk
    unfold retry_call
    rw [h]
    have hz : 0 + k + 1 = k + 1 := by omega
    rw [hz]
  · intro α f retries h1 htrans
    have h := retryLoop_exhaust f (retries - 1) 0
      (fun j hj1 hj2 => htrans j (by omega))
    unfold retry_call
    rw [h]
    have hz : 0 + (retries - 1) = retries - 1 := by omega
    rw [hz]
    have hz2 : retries - 1 + 1 = retries := by omega
    rw [hz2]

/-- Witness for C8_retry_call: with three always-transient attempts the
wrapper makes exactly 3 attempts and re-raises the third failure. -/
theorem C8_retry_call_witness :
    retry_call (fun j => (CallOutcome.transientErr j : CallOutcome ℕ)) 3
      = (CallOutcome.transientErr 2, 3) := by
  have h := C8_retry_call.2.2.1 ℕ (fun j => (CallOutcome.transientErr j : CallOutcome ℕ)) 3
    (by omega) (fun j hj => ⟨j, rfl⟩)
  simpa using h

/-- C9: on a cycle with no transition, a FLAT position has its reference
price set to the observed price while a HOLDING position is left entirely
unchanged; and when a SELL does fire the reference price is replaced by the
sell price. -/
theorem C9_reference_price :
    (∀ cfg sym st now price bf sf free, st.pos_in = false →
      ¬ price ≤ st.last_price * (1 - cfg.BASE_DIP) →
      evalSymbol cfg sym st now price bf sf free =
        { st := { st with last_price := price }, record := none, notes := [] }) ∧
    (∀ cfg sym st now price bf sf free, st.pos_in = true →
      ¬ (cfg.MIN_HOLD ≤ timedeltaSeconds now (st.buy_time.getD 0) ∧
        st.buy_price.getD 0 * (1 + cfg.BASE_RIP) ≤ price) →
      evalSymbol cfg sym st now price bf sf free =
        { st := st, record := none, notes := [] }) ∧
    (∀ cfg sym st now price bf sf free, st.pos_in = true →
      (evalSymbol cfg sym st now price bf sf free).st.pos_in = false →
      (evalSymbol cfg sym st now price bf sf free).st.last_price = price) := by
  refine ⟨evalSymbol_flat_hold, evalSymbol_holding_hold, ?_⟩
  intro cfg sym st now price bf sf free hin hout
  by_cases hs : cfg.MIN_HOLD ≤ timedeltaSeconds now (st.buy_time.getD 0) ∧
      st.buy_price.getD 0 * (1 + cfg.BASE_RIP) ≤ price
  · rw [evalSymbol_sell cfg sym st now price bf sf free hin hs.1 hs.2]
  · rw [evalSymbol_holding_hold cfg sym st now price bf sf free hin hs] at hout
    exact Bool.noConfusion (hin.symm.trans hout)

/-- Witness for C9_reference_price: flat at reference 100 seeing 99.5 (no
dip) just refreshes the reference price. -/
theorem C9_reference_price_witness :
    evalSymbol defaultConfig "B" (init_position 100) 0 (199/2) 0 0 0 =
      { st := { pos_in := false, last_price := 199/2, buy_time := none, buy_price := none },
        record := none, notes := [] } :=
  C9_reference_price.1 defaultConfig "B" (init_position 100) 0 (199/2) 0 0 0 rfl
    (by norm_num [init_position, defaultConfig])

/-- C10: a balance response with no USDT entry, or a USDT entry with no
total, makes `fetch_balance_usdt` return 0.0 without raising; with any
positive baseline (and a drawdown limit below 1) the breaker then reads
0 < baseline*(1-limit) as a breach and clears the run flag, instead of the
fetch-failure path that merely skips the iteration. -/
theorem C10_missing_usdt :
    fetch_balance_usdt none = 0 ∧
    fetch_balance_usdt (some none) = 0 ∧
    (∀ cfg s env (u : Option (Option ℚ)),
      s.running = true → (u = none ∨ u = some none) →
      env.balanceFetch = some (fetch_balance_usdt u) →
      ¬ s.last_summary_date < env.today →
      0 < s.starting_balance → cfg.DAILY_DRAWDOWN_LIMIT < 1 →
      (loopIteration cfg s env).1.running = false ∧
      Note.drawdownPause ∈ (loopIteration cfg s env).2) := by
  refine ⟨rfl, rfl, ?_⟩
  intro cfg s env u hrun hu hbf hroll hbal hlim
  have hfz : fetch_balance_usdt u = 0 := by
    rcases hu with rfl | rfl <;> rfl
  rw [hfz] at hbf
  have hnr : ¬ s.running = false := by simp [hrun]
  have hds := daily_summary_skip s env.today env.rollBalance hroll
  have hlt : (0:ℚ) < s.starting_balance * (1 - cfg.DAILY_DRAWDOWN_LIMIT) :=
    mul_pos hbal (by linarith)
  simp only [loopIteration, if_neg hnr, hbf, hds]
  rw [if_pos hlt]
  simp

/-- Concrete state for the C10 witness. -/
def c10state : BotState :=
  { running := true, last_summary_date := 0, starting_balance := 1000,
    positions := [], log := [] }

/-- Concrete environment for the C10 witness: the balance response has no
USDT entry. -/
def c10env : Env :=
  { today := 0, now := 0, rollBalance := 0,
    balanceFetch := some (fetch_balance_usdt none),
    priceOf := fun _ => 1, buyFeeOf := fun _ => 0, sellFeeOf := fun _ => 0,
    freeOf := fun _ => 0 }

/-- Witness for C10_missing_usdt: the missing-USDT response pauses the
running loop. -/
theorem C10_missing_usdt_witness :
    (loopIteration defaultConfig c10state c10env).1.running = false ∧
    Note.drawdownPause ∈ (loopIteration defaultConfig c10state c10env).2 :=
  C10_missing_usdt.2.2 defaultConfig c10state c10env none rfl (Or.inl rfl) rfl
    (by norm_num [c10state, c10env]) (by norm_num [c10state])
    (by norm_num [defaultConfig])
